import Mathlib

/-!
Verification of the report template/generation service
(`FileParserService.extractSections` / `isHeader` and
`ReportGeneratorService.generateReport` / `generateContentForTemplate`).

Strings are modelled as `List Char` (one entry per Unicode code point).
Where JavaScript counts UTF-16 code units (`String.prototype.length`),
we use `jsLength`, which counts astral code points twice.
-/

set_option maxHeartbeats 1000000
set_option maxRecDepth 20000

abbrev Str := List Char

/-- ECMAScript WhiteSpace ∪ LineTerminator: the set removed by
`String.prototype.trim` and matched by `\s` in a regex. -/
def jsWS (c : Char) : Bool :=
  c == ' ' || c == '\t' || c == '\n' || c == '\r' ||
  c.toNat == 0x0B || c.toNat == 0x0C || c.toNat == 0xA0 || c.toNat == 0x1680 ||
  (0x2000 ≤ c.toNat && c.toNat ≤ 0x200A) ||
  c.toNat == 0x2028 || c.toNat == 0x2029 ||
  c.toNat == 0x202F || c.toNat == 0x205F || c.toNat == 0x3000 || c.toNat == 0xFEFF

/-- What `.` matches in a JS regex without the `s` flag: anything but a
line terminator (LF, CR, U+2028, U+2029). -/
def jsDot (c : Char) : Bool :=
  !(c == '\n' || c == '\r' || c.toNat == 0x2028 || c.toNat == 0x2029)

/-- `\d` in a JS regex. -/
def jsDigit (c : Char) : Bool := '0' ≤ c && c ≤ '9'

/-- The character class `[가-힣]` (Hangul syllables). -/
def hangulSyl (c : Char) : Bool := '가' ≤ c && c ≤ '힣'

/-- The character class `[A-Z]`. -/
def upperAZ (c : Char) : Bool := 'A' ≤ c && c ≤ 'Z'

/-- `String.prototype.length`: UTF-16 code units, so astral code points
count twice. -/
def jsLength (s : Str) : Nat :=
  s.foldl (fun n c => n + (if 0x10000 ≤ c.toNat then 2 else 1)) 0

/-- `String.prototype.trim`: strip `jsWS` from both ends. -/
def trim (s : Str) : Str :=
  ((s.dropWhile jsWS).reverse.dropWhile jsWS).reverse

/-- Helper for `splitNL`: prepend a character to the first chunk. -/
def consHead (c : Char) : List Str → List Str
  | [] => [[c]]
  | s :: ss => (c :: s) :: ss

/-- `content.split('\n')`. Like in JS, the result is never empty
(`"".split('\n')` is `[""]`). -/
def splitNL : Str → List Str
  | [] => [[]]
  | c :: cs => if c == '\n' then [] :: splitNL cs else consHead c (splitNL cs)

/-- `String.prototype.includes`. -/
def includes (s sub : Str) : Bool := decide (sub <:+: s)

/-- Tail of the regexes `\s+.+` applied as a prefix match to `W`: at
least one `\s` character, then at least one `.` character.  A match
exists iff the leading whitespace run of `W` is non-empty and either a
(necessarily non-terminator, hence `.`-matching) character follows the
run, or some character of the run beyond the first is itself a
`.`-matching (non-terminator) whitespace character that `.` can consume. -/
def wsDotTail (W : Str) : Bool :=
  let m := (W.takeWhile jsWS).length
  decide (1 ≤ m) && (decide (m < W.length) || ((W.take m).drop 1).any jsDot)

/-- `/^\d+\.\s+.+/` as a prefix match: a maximal non-empty digit run
(a shorter run would be followed by another digit, not `.`), a literal
dot, then `\s+.+`. -/
def pNum (l : Str) : Bool :=
  let ds := l.takeWhile jsDigit
  decide (1 ≤ ds.length) &&
    (match l.drop ds.length with
     | '.' :: W => wsDotTail W
     | _ => false)

/-- `/^[가-힣]\.\s+.+/` as a prefix match. -/
def pHangul (l : Str) : Bool :=
  match l with
  | c :: '.' :: W => hangulSyl c && wsDotTail W
  | _ => false

/-- `/^[A-Z]\.\s+.+/` as a prefix match. -/
def pUpper (l : Str) : Bool :=
  match l with
  | c :: '.' :: W => upperAZ c && wsDotTail W
  | _ => false

/-- `/^#{1,6}\s+.+/` as a prefix match: the hash run taken must be the
whole leading run (stopping early leaves a `#`, which `\s` rejects), so
the leading run must have length 1–6, followed by `\s+.+`. -/
def pHash (l : Str) : Bool :=
  let hs := l.takeWhile (· == '#')
  decide (1 ≤ hs.length) && decide (hs.length ≤ 6) && wsDotTail (l.drop hs.length)

/-- `/^.{1,50}:$/` (a full match): 1–50 `.`-matching code units, then a
final `:`; i.e. total length 2–51 in code units, last character `:`,
and every earlier character matched by `.`. -/
def pColon (l : Str) : Bool :=
  decide (2 ≤ jsLength l) && decide (jsLength l ≤ 51) &&
    (l.getLast? == some ':') && l.dropLast.all jsDot

/-- First class `[[\]【】]` of the bracket pattern. -/
def brOpen (c : Char) : Bool :=
  c == '[' || c == ']' || c.toNat == 0x3010 || c.toNat == 0x3011

/-- Final class `[[\]】]` of the bracket pattern. -/
def brClose (c : Char) : Bool :=
  c == '[' || c == ']' || c.toNat == 0x3011

/-- Can `S` be split as `\s*.+\s*`?  Every character is matched by `\s`
or `.` (the only non-`.` characters are line terminators, which are
whitespace), so: if `S` is all whitespace a single `.`-matching
character anywhere suffices; otherwise the window between the maximal
whitespace prefix and suffix is forced into the `.+` part and must be
all `.`-matching. -/
def wsDotWs (S : Str) : Bool :=
  let a := (S.takeWhile jsWS).length
  let b := (S.reverse.takeWhile jsWS).length
  if decide (S.length ≤ a + b) then S.any jsDot
  else ((S.drop a).take (S.length - b - a)).all jsDot

/-- `/^[[\]【】]\s*.+\s*[[\]】]/` as a prefix match: a first character in
the opening class, then some position `i` of the tail holding a closing
class character preceded by a `\s*.+\s*` stretch. -/
def pBracket (l : Str) : Bool :=
  match l with
  | c :: T =>
      brOpen c &&
        (List.range T.length).any (fun i =>
          (match T.drop i with
           | e :: _ => brClose e && wsDotWs (T.take i)
           | [] => false))
  | [] => false

def kwGoal : Str := "목표".toList
def kwOverview : Str := "개요".toList
def kwBackground : Str := "배경".toList
def kwConclusion : Str := "결론".toList
def kwSummary : Str := "요약".toList

/-- `FileParserService.isHeader`.  The parenthesisation of the keyword
branch mirrors JS operator precedence exactly: `&&` binds tighter than
`||`, so the length check scopes only over the first keyword. -/
def isHeader (line : Str) : Bool :=
  (pNum line || pHangul line || pUpper line || pHash line || pColon line || pBracket line) ||
  (decide (jsLength line < 100) && includes line kwGoal || includes line kwOverview ||
   includes line kwBackground || includes line kwConclusion || includes line kwSummary)

inductive SectionType where
  | header
  | content
  | table
  | list
  | image
deriving DecidableEq

/-- `IReport.ITemplateSection` (`placeholder?: string` is optional). -/
structure ITemplateSection where
  title : Str
  placeholder : Option Str
  order : Nat
  type : SectionType
deriving DecidableEq

/-- The auto-generated placeholder `` `[${trimmedLine} 내용을 입력하세요]` ``. -/
def defaultPlaceholder (t : Str) : Str :=
  "[".toList ++ t ++ " 내용을 입력하세요]".toList

/-- JS falsiness of `currentSection.placeholder`: absent or empty. -/
def optFalsy : Option Str → Bool
  | none => true
  | some s => s.isEmpty

/-- The line loop of `FileParserService.extractSections` (lines 68–94):
`cur` is the open `currentSection`, `order` the running counter, `acc`
the emitted `sections` array. -/
def extractLoop : List Str → Option ITemplateSection → Nat → List ITemplateSection →
    List ITemplateSection
  | [], cur, _, acc => acc ++ cur.toList
  | line :: rest, cur, order, acc =>
    let t := trim line
    if isHeader t then
      extractLoop rest (some ⟨t, some (defaultPlaceholder t), order, .header⟩) (order + 1)
        (acc ++ cur.toList)
    else
      match cur with
      | some c =>
          if t.isEmpty then
            extractLoop rest (some c) order acc
          else
            extractLoop rest
              (some { c with
                       type := .content,
                       placeholder := if optFalsy c.placeholder then some t else c.placeholder })
              order acc
      | none => extractLoop rest none order acc

/-- `content.split('\n').filter(line => line.trim())`. -/
def contentLines (content : Str) : List Str :=
  (splitNL content).filter (fun line => !(trim line).isEmpty)

/-- The default section pushed when no section was found. -/
def defaultSection : ITemplateSection :=
  ⟨"전체 문서".toList, some ("[보고서 내용을 입력하세요]".toList), 0, .content⟩

/-- `FileParserService.extractSections`. -/
def extractSections (content : Str) : List ITemplateSection :=
  let sections := extractLoop (contentLines content) none 0 []
  if sections.isEmpty then [defaultSection] else sections

inductive FileType where
  | pdf
  | docx
deriving DecidableEq

/-- `IReport.ITemplate`. -/
structure ITemplate where
  filename : Str
  type : FileType
  content : Str
  sections : List ITemplateSection
deriving DecidableEq

inductive ReportStatus where
  | pending
  | processing
  | completed
  | failed
deriving DecidableEq

/-- `IReport`. -/
structure IReport where
  id : Str
  title : Str
  template : ITemplate
  content : Str
  status : ReportStatus
  created_at : Str
  completed_at : Option Str
deriving DecidableEq

inductive GenStatus where
  | started
  | completed
  | failed
deriving DecidableEq

/-- `IReport.IGenerateResponse` (`content?` and `error?` are optional). -/
structure IGenerateResponse where
  reportId : Str
  status : GenStatus
  content : Option Str
  error : Option Str
deriving DecidableEq

/-- The request taken by `ReportGeneratorService.generateReport`.  The
optional `context` is used only inside the unused `systemPrompt` string
(dead for every observable result), so it is not modelled here beyond
the possibility that serialising it throws (see `generateReportWith`). -/
structure IGenerateRequest where
  templateId : Str
  title : Str
  prompt : Str
deriving DecidableEq

/-- A JS `Map` keyed by strings, as an insertion-ordered association
list; `set` replaces in place or appends. -/
def mapGet {V : Type} (m : List (Str × V)) (k : Str) : Option V :=
  (m.find? (fun kv => kv.1 == k)).map (·.2)

def mapSet {V : Type} (m : List (Str × V)) (k : Str) (v : V) : List (Str × V) :=
  if m.any (fun kv => kv.1 == k) then
    m.map (fun kv => if kv.1 == k then (k, v) else kv)
  else
    m ++ [(k, v)]

abbrev TemplateMap := List (Str × ITemplate)
abbrev ReportMap := List (Str × IReport)

/-- The comparator `(a, b) => a.order - b.order`: sort ascending by
`order`. -/
def secLE (a b : ITemplateSection) : Prop := a.order ≤ b.order

instance : DecidableRel secLE := fun a b => Nat.decLe a.order b.order

instance : IsTotal ITemplateSection secLE := ⟨fun a b => Nat.le_total a.order b.order⟩

instance : IsTrans ITemplateSection secLE := ⟨fun _ _ _ => Nat.le_trans⟩

/-- `template.sections.sort((a, b) => a.order - b.order)`:
`Array.prototype.sort` is required to be stable and to order by the
comparator, which determines its output uniquely; insertion sort with
`≤` on `order` is that stable sort (`sortSections_stable` below). -/
def sortSections (l : List ITemplateSection) : List ITemplateSection :=
  List.insertionSort secLE l

/-- `${section.placeholder}` in a template literal: an absent field
prints as the string `undefined`. -/
def phText : Option Str → Str
  | some p => p
  | none => "undefined".toList

def tableBlock : Str :=
  "| 항목 | 내용 | 비고 |\n|------|------|------|\n| 예시1 | 데이터1 | 설명1 |\n| 예시2 | 데이터2 | 설명2 |\n\n".toList

def listBlock : Str :=
  "- 첫 번째 항목\n- 두 번째 항목\n- 세 번째 항목\n\n".toList

/-- One iteration of the section loop of
`generateContentForTemplate` (lines 253–274). -/
def sectionBlock (userPrompt : Str) (s : ITemplateSection) : Str :=
  "## ".toList ++ s.title ++ "\n\n".toList ++
  (if s.type = .header then ("### ".toList) ++ s.title ++ " 상세\n\n".toList else []) ++
  phText s.placeholder ++ "\n\n".toList ++
  (match s.type with
   | .content => "[".toList ++ userPrompt ++ "와 관련된 ".toList ++ s.title ++
       " 내용이 여기에 작성됩니다.]\n\n".toList
   | .table => tableBlock
   | .list => listBlock
   | _ => [])

/-- The footer appended after the loop; `now` stands for
`new Date().toLocaleString()`. -/
def footerBlock (filename now : Str) : Str :=
  "\n---\n**보고서 생성 완료**: ".toList ++ now ++ "\n".toList ++
  "**기반 템플릿**: ".toList ++ filename ++ "\n".toList

/-- `ReportGeneratorService.generateContentForTemplate`.  Besides the
produced string it returns the template as it is after the call:
`template.sections.sort(...)` sorts the `sections` array in place, so
the template object ends up with the sorted array.  (The `systemPrompt`
string built on lines 230–249 is never used and is omitted.) -/
def generateContentForTemplate (template : ITemplate) (userPrompt : Str) (now : Str) :
    Str × ITemplate :=
  let sorted := sortSections template.sections
  let full := "# ".toList ++ template.filename ++ "에 기반한 보고서\n\n".toList
  let full := sorted.foldl (fun acc s => acc ++ sectionBlock userPrompt s) full
  let full := full ++ footerBlock template.filename now
  (full, { template with sections := sorted })

/-- `ReportGeneratorService.generateReport`, parameterised by the
outcome of the synthesis step.  `synthesize` abstracts
`generateContentForTemplate` together with the construction of the
unused `systemPrompt`: that construction can genuinely throw
(`JSON.stringify(request.context)` on non-serialisable input), which
the `catch` block turns into a failed response.  The realistic throw
point precedes the in-place sort, so on `.error` the template is
returned unmodified.  `freshId` stands for the `uuidv4()` call,
`created_at`/`completed_at` for the two `toISOString()` calls.  Note
that the `processing`-state report is `set` into the registry *before*
synthesis runs (line 190). -/
def generateReportWith (synthesize : ITemplate → Str → Except Str (Str × ITemplate))
    (templates : TemplateMap) (reports : ReportMap) (request : IGenerateRequest)
    (freshId created_at completed_at : Str) :
    TemplateMap × ReportMap × IGenerateResponse :=
  match mapGet templates request.templateId with
  | none =>
      (templates, reports, ⟨[], .failed, none, some ("Template not found".toList)⟩)
  | some template =>
      let report : IReport := ⟨freshId, request.title, template, [], .processing, created_at, none⟩
      let reports1 := mapSet reports freshId report
      match synthesize template request.prompt with
      | .error msg => (templates, reports1, ⟨[], .failed, none, some msg⟩)
      | .ok (content, template1) =>
          let report1 : IReport :=
            { report with
               template := template1, content := content,
               status := .completed, completed_at := some completed_at }
          (mapSet templates request.templateId template1, mapSet reports1 freshId report1,
           ⟨freshId, .completed, some content, none⟩)

/-- `generateReport` with the synthesis step that actually runs when no
exception occurs. -/
def generateReport (templates : TemplateMap) (reports : ReportMap) (request : IGenerateRequest)
    (freshId created_at nowLocale completed_at : Str) :
    TemplateMap × ReportMap × IGenerateResponse :=
  generateReportWith (fun t p => .ok (generateContentForTemplate t p nowLocale))
    templates reports request freshId created_at completed_at

/-- Does a line begin with `## ` (a markdown level-2 heading)? -/
def startsH2 : Str → Bool
  | c1 :: c2 :: c3 :: _ => c1 == '#' && c2 == '#' && c3 == ' '
  | _ => false

/-- The level-2 heading lines of a string. -/
def h2Lines (s : Str) : List Str := (splitNL s).filter startsH2

/-- Cleanliness of a section for heading counting: its title holds no
newline, and its placeholder (when present) holds no newline and does
not itself begin with `## `. -/
def secClean (s : ITemplateSection) : Prop :=
  '\n' ∉ s.title ∧
    ∀ p, s.placeholder = some p → ('\n' ∉ p ∧ startsH2 p = false)

/-! ### Concrete instances used by the claims -/

/-- Placeholders that the segmentation loop creates are present and
non-empty. -/
def goodPH (s : ITemplateSection) : Prop := ∃ p, s.placeholder = some p ∧ p ≠ []

/-- The example input of the specification:
`"1. 목표\n달성할 목표는 매출 증가입니다.\n2. 결론\n요약하면 긍정적입니다."`. -/
def exInput : Str :=
  "1. 목표\n달성할 목표는 매출 증가입니다.\n2. 결론\n요약하면 긍정적입니다.".toList

/-- What `extractSections` actually produces on `exInput`: both body
sentences contain the keywords 목표/요약, so all four lines are
classified as headers. -/
def exOutput : List ITemplateSection :=
  [⟨"1. 목표".toList, some ("[1. 목표 내용을 입력하세요]".toList), 0, .header⟩,
   ⟨"달성할 목표는 매출 증가입니다.".toList,
     some ("[달성할 목표는 매출 증가입니다. 내용을 입력하세요]".toList), 1, .header⟩,
   ⟨"2. 결론".toList, some ("[2. 결론 내용을 입력하세요]".toList), 2, .header⟩,
   ⟨"요약하면 긍정적입니다.".toList,
     some ("[요약하면 긍정적입니다. 내용을 입력하세요]".toList), 3, .header⟩]

/-- A 100-code-unit line (98 `a`s and 개요) matching none of the six
pattern rules. -/
def line100 : Str := List.replicate 98 'a' ++ "개요".toList

/-- A header line followed by a keyword-free body line. -/
def hbInput : Str := "1. a\nbody x".toList

/-- Two consecutive header lines. -/
def hhInput : Str := "1. a\n2. b".toList

/-- Sections with orders 1 and 0: a template whose list is not sorted. -/
def secA : ITemplateSection := ⟨"a".toList, none, 0, .content⟩

def secB : ITemplateSection := ⟨"b".toList, none, 1, .content⟩

def c4Template : ITemplate := ⟨"f.pdf".toList, .pdf, [], [secB, secA]⟩

def c4Sorted : ITemplate := ⟨"f.pdf".toList, .pdf, [], [secA, secB]⟩

def c1Template : ITemplate := ⟨"f.pdf".toList, .pdf, [], [secA]⟩

def c1Templates : TemplateMap := [("t1".toList, c1Template)]

def c1Request : IGenerateRequest := ⟨"t1".toList, "T".toList, "P".toList⟩

/-- A synthesis step that throws (e.g. `JSON.stringify` of a circular
`context` while building the unused `systemPrompt`). -/
def failSynth : ITemplate → Str → Except Str (Str × ITemplate) :=
  fun _ _ => .error ("boom".toList)

/-- A template whose only section smuggles a level-2 heading into its
placeholder text. -/
def c5Template : ITemplate :=
  ⟨"f.pdf".toList, .pdf, [], [⟨"T".toList, some ("## X".toList), 0, .content⟩]⟩

/-! ### Lemmas about the segmentation loop -/

theorem extractLoop_acc (lines : List Str) :
    ∀ cur ord acc, extractLoop lines cur ord acc = acc ++ extractLoop lines cur ord [] := by
  induction lines with
  | nil => intro cur ord acc; simp [extractLoop]
  | cons line rest ih =>
    intro cur ord acc
    by_cases h : isHeader (trim line)
    · simp only [extractLoop, h, if_true]
      rw [ih _ _ (acc ++ cur.toList), ih _ _ ([] ++ cur.toList)]
      simp [List.append_assoc]
    · cases cur with
      | none => simp only [extractLoop, h, if_false]; exact ih _ _ _
      | some c =>
        by_cases ht : (trim line).isEmpty <;>
          simp only [extractLoop, h, if_false, ht, if_true] <;> exact ih _ _ _

theorem extractLoop_order (lines : List Str) :
    ∀ cur ord acc,
      acc.map (·.order) ++ (cur.map (·.order)).toList = List.range ord →
      ∃ m, (extractLoop lines cur ord acc).map (·.order) = List.range m := by
  induction lines with
  | nil =>
    intro cur ord acc hinv
    refine ⟨ord, ?_⟩
    cases cur <;> simp only [extractLoop] <;> simpa using hinv
  | cons line rest ih =>
    intro cur ord acc hinv
    by_cases h : isHeader (trim line)
    · simp only [extractLoop, h, if_true]
      refine ih _ _ _ ?_
      have : (acc ++ cur.toList).map (·.order) = List.range ord := by
        cases cur <;> simpa using hinv
      simp [this, List.range_succ]
    · cases cur with
      | none => simp only [extractLoop, h, if_false]; exact ih _ _ _ (by simpa using hinv)
      | some c =>
        by_cases ht : (trim line).isEmpty <;>
          simp only [extractLoop, h, if_false, ht, if_true] <;>
          exact ih _ _ _ (by simpa using hinv)

theorem defaultPlaceholder_ne_nil (t : Str) : defaultPlaceholder t ≠ [] := by
  simp [defaultPlaceholder]

theorem optFalsy_of_goodPH {s : ITemplateSection} (h : goodPH s) :
    optFalsy s.placeholder = false := by
  obtain ⟨p, hp, hne⟩ := h
  simp [hp, optFalsy, List.isEmpty_iff, hne]

theorem extractLoop_goodPH (lines : List Str) :
    ∀ cur ord acc,
      (∀ s ∈ acc, goodPH s) → (∀ s ∈ cur.toList, goodPH s) →
      ∀ s ∈ extractLoop lines cur ord acc, goodPH s := by
  induction lines with
  | nil =>
    intro cur ord acc hacc hcur s hs
    simp only [extractLoop, List.mem_append] at hs
    rcases hs with hs | hs
    · exact hacc s hs
    · exact hcur s hs
  | cons line rest ih =>
    intro cur ord acc hacc hcur s hs
    by_cases h : isHeader (trim line)
    · simp only [extractLoop, h, if_true] at hs
      refine ih _ _ _ ?_ ?_ s hs
      · intro x hx
        rcases List.mem_append.1 hx with hx | hx
        · exact hacc x hx
        · exact hcur x hx
      · intro x hx
        simp only [Option.toList] at hx
        rw [List.mem_singleton] at hx
        subst hx
        exact ⟨defaultPlaceholder (trim line), rfl, defaultPlaceholder_ne_nil _⟩
    · cases cur with
      | none =>
        simp only [extractLoop, h, if_false] at hs
        refine ih _ _ _ hacc ?_ s hs
        intro x hx
        simp [Option.toList] at hx
      | some c =>
        have hc : goodPH c := hcur c (by simp [Option.toList])
        by_cases ht : (trim line).isEmpty
        · simp only [extractLoop, h, if_false, ht, if_true] at hs
          refine ih _ _ _ hacc ?_ s hs
          intro x hx
          simp only [Option.toList] at hx
          rw [List.mem_singleton] at hx
          subst hx
          exact hc
        · simp only [extractLoop, h, Bool.false_eq_true, if_false, ht] at hs
          refine ih _ _ _ hacc ?_ s hs
          intro x hx
          simp only [Option.toList] at hx
          rw [List.mem_singleton] at hx
          subst hx
          have hof : optFalsy c.placeholder = false := optFalsy_of_goodPH hc
          rcases hc with ⟨p, hp, hne⟩
          refine ⟨p, ?_, hne⟩
          simp only [hof, Bool.false_eq_true, if_false]
          exact hp

theorem extractLoop_first (lines : List Str) :
    ∀ c ord, ∃ c2 rest, extractLoop lines (some c) ord [] = c2 :: rest ∧
      c2.title = c.title ∧ c2.order = c.order := by
  induction lines with
  | nil => intro c ord; exact ⟨c, [], by simp [extractLoop], rfl, rfl⟩
  | cons line rest ih =>
    intro c ord
    by_cases h : isHeader (trim line)
    · refine ⟨c, extractLoop rest (some ⟨trim line, some (defaultPlaceholder (trim line)),
        ord, .header⟩) (ord + 1) [], ?_, rfl, rfl⟩
      simp only [extractLoop, h, if_true]
      rw [extractLoop_acc]
      simp
    · by_cases ht : (trim line).isEmpty
      · simpa only [extractLoop, h, if_false, ht, if_true] using ih c ord
      · obtain ⟨c2, rest2, heq, h1, h2⟩ := ih
          { c with type := .content,
                   placeholder := if optFalsy c.placeholder then some (trim line)
                                  else c.placeholder } ord
        exact ⟨c2, rest2, by simpa only [extractLoop, h, if_false, ht] using heq, h1, h2⟩

theorem extractLoop_first_fixed (lines : List Str) :
    ∀ c ord, c.type = .content → optFalsy c.placeholder = false →
      ∃ rest, extractLoop lines (some c) ord [] = c :: rest := by
  induction lines with
  | nil => intro c ord _ _; exact ⟨[], by simp [extractLoop]⟩
  | cons line rest ih =>
    intro c ord hc hph
    by_cases h : isHeader (trim line)
    · refine ⟨extractLoop rest (some ⟨trim line, some (defaultPlaceholder (trim line)),
        ord, .header⟩) (ord + 1) [], ?_⟩
      simp only [extractLoop, h, if_true]
      rw [extractLoop_acc]
      simp
    · by_cases ht : (trim line).isEmpty
      · simpa only [extractLoop, h, if_false, ht, if_true] using ih c ord hc hph
      · have heq : ({ c with
                        type := .content,
                        placeholder := (if optFalsy c.placeholder then some (trim line)
                                        else c.placeholder) } : ITemplateSection) = c := by
          cases c; simp_all
        obtain ⟨rest2, h2⟩ := ih c ord hc hph
        refine ⟨rest2, ?_⟩
        simp only [extractLoop, h, if_false, ht, heq]
        exact h2

/-- Running the loop over a prefix of the line list lands in some state
that still satisfies the order invariant. -/
theorem extractLoop_split (pre : List Str) :
    ∀ lines cur ord acc,
      acc.map (·.order) ++ (cur.map (·.order)).toList = List.range ord →
      ∃ cur2 ord2 acc2,
        extractLoop (pre ++ lines) cur ord acc = extractLoop lines cur2 ord2 acc2 ∧
        acc2.map (·.order) ++ (cur2.map (·.order)).toList = List.range ord2 := by
  induction pre with
  | nil => intro lines cur ord acc hinv; exact ⟨cur, ord, acc, rfl, hinv⟩
  | cons line pre ih =>
    intro lines cur ord acc hinv
    by_cases h : isHeader (trim line)
    · simp only [List.cons_append, extractLoop, h, if_true]
      refine ih _ _ _ _ ?_
      have : (acc ++ cur.toList).map (·.order) = List.range ord := by
        cases cur <;> simpa using hinv
      simp [this, List.range_succ]
    · cases cur with
      | none =>
        simp only [List.cons_append, extractLoop, h, if_false]
        exact ih _ _ _ _ (by simpa using hinv)
      | some c =>
        by_cases ht : (trim line).isEmpty <;>
          simp only [List.cons_append, extractLoop, h, if_false, ht, if_true] <;>
          exact ih _ _ _ _ (by simpa using hinv)

/-! ### Claims about segmentation -/

/-- C6: for every input string, `extractSections` returns a non-empty
list of sections whose `order` values are strictly increasing starting
at 0.  (The function is total by construction, so it never fails.) -/
theorem claim_C6 (content : Str) :
    extractSections content ≠ [] ∧
    (extractSections content).head?.map (·.order) = some 0 ∧
    (extractSections content).Pairwise (fun a b => a.order < b.order) := by
  obtain ⟨m, hm⟩ := extractLoop_order (contentLines content) none 0 [] (by simp)
  unfold extractSections
  by_cases he : (extractLoop (contentLines content) none 0 []).isEmpty
  · simp only [he, if_true]
    refine ⟨by simp, by simp [defaultSection], by simp⟩
  · simp only [he, if_false]
    have hne : extractLoop (contentLines content) none 0 [] ≠ [] := by
      simpa [List.isEmpty_iff] using he
    refine ⟨hne, ?_, ?_⟩
    · cases hL : extractLoop (contentLines content) none 0 [] with
      | nil => exact absurd hL hne
      | cons a l =>
        rw [hL] at hm
        cases m with
        | zero => simp at hm
        | succ k =>
          rw [List.range_succ_eq_map] at hm
          simp only [List.map_cons, List.cons.injEq] at hm
          simp [hm.1]
    · have hp : (List.range m).Pairwise (· < ·) := List.sorted_lt_range m
      rw [← hm] at hp
      exact List.pairwise_map.mp hp

/-- C7: segmenting the empty string yields exactly one section, the
default section titled `전체 문서` with order 0 and type `content`. -/
theorem claim_C7 :
    extractSections [] =
      [⟨"전체 문서".toList, some ("[보고서 내용을 입력하세요]".toList), 0, .content⟩] := by
  decide

/-- C10: every section returned by `extractSections` carries a present,
non-empty placeholder, although the `ITemplateSection` type makes the
field optional. -/
theorem claim_C10 (content : Str) :
    ∀ s ∈ extractSections content, ∃ p, s.placeholder = some p ∧ p ≠ [] := by
  intro s hs
  unfold extractSections at hs
  by_cases he : (extractLoop (contentLines content) none 0 []).isEmpty
  · simp only [he, if_true] at hs
    rw [List.mem_singleton] at hs
    subst hs
    exact ⟨"[보고서 내용을 입력하세요]".toList, rfl, by decide⟩
  · simp only [he, if_false] at hs
    exact extractLoop_goodPH _ _ _ _ (by simp) (by simp [Option.toList]) s hs

/-- C10 witness: the default section of the empty input has the
non-empty placeholder `[보고서 내용을 입력하세요]`. -/
theorem claim_C10_witness :
    ∃ p, (⟨"전체 문서".toList, some ("[보고서 내용을 입력하세요]".toList), 0,
      .content⟩ : ITemplateSection).placeholder = some p ∧ p ≠ [] :=
  claim_C10 [] _ (by decide)

/-- C8: whenever two consecutive (kept) lines are both classified as
headers, the result contains two adjacent sections for them, and the
first keeps type `header` with its auto-generated placeholder; its
position equals its `order`. -/
theorem claim_C8 (content : Str) (pre post : List Str) (l1 l2 : Str)
    (hsplit : contentLines content = pre ++ l1 :: l2 :: post)
    (h1 : isHeader (trim l1) = true) (h2 : isHeader (trim l2) = true) :
    ∃ A s2 B, extractSections content =
        A ++ (⟨trim l1, some (defaultPlaceholder (trim l1)), A.length, .header⟩ :
          ITemplateSection) :: s2 :: B ∧
      s2.title = trim l2 ∧ s2.order = A.length + 1 := by
  obtain ⟨cur2, ord2, acc2, heq, hinv⟩ :=
    extractLoop_split pre (l1 :: l2 :: post) none 0 [] (by simp)
  have hmapA : (acc2 ++ cur2.toList).map (·.order) = List.range ord2 := by
    cases cur2 <;> simpa using hinv
  have hlen : (acc2 ++ cur2.toList).length = ord2 := by
    have := congrArg List.length hmapA
    simpa using this
  have hrun : extractLoop (contentLines content) none 0 [] =
      (acc2 ++ cur2.toList) ++
        (⟨trim l1, some (defaultPlaceholder (trim l1)), ord2, .header⟩ : ITemplateSection) ::
        extractLoop post
          (some ⟨trim l2, some (defaultPlaceholder (trim l2)), ord2 + 1, .header⟩)
          (ord2 + 2) [] := by
    rw [hsplit, heq]
    simp only [extractLoop, h1, if_true, h2]
    rw [extractLoop_acc]
    simp [Option.toList, List.append_assoc]
  obtain ⟨s2, B, hfirst, htitle, horder⟩ :=
    extractLoop_first post ⟨trim l2, some (defaultPlaceholder (trim l2)), ord2 + 1, .header⟩
      (ord2 + 2)
  rw [hfirst] at hrun
  refine ⟨acc2 ++ cur2.toList, s2, B, ?_, htitle, by rw [horder, hlen]⟩
  rw [extractSections, hrun]
  rw [hlen]
  simp

/-- C8 witness: on `"1. a\n2. b"` the two header lines give two adjacent
sections, the first of type `header` with the default placeholder. -/
theorem claim_C8_witness :
    ∃ A s2 B, extractSections hhInput =
        A ++ (⟨trim ("1. a".toList), some (defaultPlaceholder (trim ("1. a".toList))),
          A.length, .header⟩ : ITemplateSection) :: s2 :: B ∧
      s2.title = trim ("2. b".toList) ∧ s2.order = A.length + 1 :=
  claim_C8 hhInput [] [] ("1. a".toList) ("2. b".toList) (by decide) (by decide) (by decide)

/-- C2 (amended): a header line immediately followed by a kept
non-header line yields a section of type `content` (promoted from
`header`) whose placeholder is still the auto-generated default — the
replacement branch `if (!currentSection.placeholder)` never fires
because the default is non-empty.  On the spec's example input all four
lines (the body sentences contain 목표/요약) are headers, so it yields
four `header`-typed sections with default placeholders. -/
theorem claim_C2_amended :
    (∀ (content : Str) (pre post : List Str) (h b : Str),
      contentLines content = pre ++ h :: b :: post →
      isHeader (trim h) = true → isHeader (trim b) = false → trim b ≠ [] →
      ∃ A B, extractSections content =
        A ++ (⟨trim h, some (defaultPlaceholder (trim h)), A.length, .content⟩ :
          ITemplateSection) :: B) ∧
    extractSections exInput = exOutput := by
  constructor
  · intro content pre post h b hsplit hh hb hbne
    obtain ⟨cur2, ord2, acc2, heq, hinv⟩ :=
      extractLoop_split pre (h :: b :: post) none 0 [] (by simp)
    have hmapA : (acc2 ++ cur2.toList).map (·.order) = List.range ord2 := by
      cases cur2 <;> simpa using hinv
    have hlen : (acc2 ++ cur2.toList).length = ord2 := by
      have := congrArg List.length hmapA
      simpa using this
    have hbe : (trim b).isEmpty = false := by
      simpa [List.isEmpty_iff] using hbne
    have hrun : extractLoop (contentLines content) none 0 [] =
        (acc2 ++ cur2.toList) ++
          extractLoop post
            (some ⟨trim h, some (defaultPlaceholder (trim h)), ord2, .content⟩)
            (ord2 + 1) [] := by
      rw [hsplit, heq]
      simp only [extractLoop, hh, if_true, hb, Bool.false_eq_true, if_false, hbe,
        optFalsy, defaultPlaceholder]
      rw [extractLoop_acc]
      simp [Option.toList, defaultPlaceholder]
    obtain ⟨B, hfirst⟩ := extractLoop_first_fixed post
      ⟨trim h, some (defaultPlaceholder (trim h)), ord2, .content⟩ (ord2 + 1) rfl
      (by simp [optFalsy, List.isEmpty_iff, defaultPlaceholder])
    rw [hfirst] at hrun
    refine ⟨acc2 ++ cur2.toList, B, ?_⟩
    rw [extractSections, hrun, hlen]
    simp
  · decide

/-- C2 witness: on `"1. a\nbody x"` the header section is promoted to
`content` but keeps the default placeholder. -/
theorem claim_C2_witness :
    ∃ A B, extractSections hbInput =
      A ++ (⟨trim ("1. a".toList), some (defaultPlaceholder (trim ("1. a".toList))),
        A.length, .content⟩ : ITemplateSection) :: B :=
  claim_C2_amended.1 hbInput [] [] ("1. a".toList) ("body x".toList)
    (by decide) (by decide) (by decide) (by decide)

/-- C2 counterexample: the spec's example input does not segment into
two sections (it yields the four header-typed sections of `exOutput`,
with auto-generated placeholders, because its body sentences contain
the keywords 목표/요약). -/
theorem claim_C2_counterexample :
    extractSections exInput = exOutput ∧ (extractSections exInput).length ≠ 2 := by
  decide

/-- C3 counterexample: `line100` is 100 code units long, matches none of
the six pattern rules, yet `isHeader` classifies it as a header (it
contains 개요, and the `< 100` check binds only to the 목표 branch). -/
theorem claim_C3_counterexample :
    100 ≤ jsLength line100 ∧
    pNum line100 = false ∧ pHangul line100 = false ∧ pUpper line100 = false ∧
    pHash line100 = false ∧ pColon line100 = false ∧ pBracket line100 = false ∧
    isHeader line100 = true := by
  decide

/-- C3 (amended): the `< 100` length check scopes only over the first
keyword alternative (목표).  A line of length ≥ 100 that contains none
of 개요/배경/결론/요약 is classified exactly by the pattern rules (the
목표 branch is suppressed); a line containing 개요 is a header
regardless of its length. -/
theorem claim_C3_amended :
    (∀ l : Str, 100 ≤ jsLength l →
      includes l kwOverview = false → includes l kwBackground = false →
      includes l kwConclusion = false → includes l kwSummary = false →
      isHeader l = (pNum l || pHangul l || pUpper l || pHash l || pColon l || pBracket l)) ∧
    (∀ l : Str, includes l kwOverview = true → isHeader l = true) := by
  constructor
  · intro l hlen h1 h2 h3 h4
    have hd : decide (jsLength l < 100) = false := by
      simp only [decide_eq_false_iff_not]
      omega
    simp [isHeader, hd, h1, h2, h3, h4]
  · intro l h
    simp [isHeader, h]

/-- C3 witness: a 100-character keyword-free line is not a header; the
bare line 개요 is. -/
theorem claim_C3_witness :
    isHeader (List.replicate 100 'a') = false ∧ isHeader ("개요".toList) = true := by
  constructor
  · have h := claim_C3_amended.1 (List.replicate 100 'a')
      (by decide) (by decide) (by decide) (by decide) (by decide)
    rw [h]
    decide
  · exact claim_C3_amended.2 ("개요".toList) (by decide)

/-! ### The sort used by the synthesizer -/

theorem sortSections_sorted (l : List ITemplateSection) :
    (sortSections l).Sorted secLE :=
  List.sorted_insertionSort secLE l

theorem sortSections_perm (l : List ITemplateSection) : (sortSections l).Perm l :=
  List.perm_insertionSort secLE l

theorem sortSections_of_sorted {l : List ITemplateSection} (h : l.Sorted secLE) :
    sortSections l = l :=
  List.Sorted.insertionSort_eq h

theorem filter_orderedInsert_eq (k : Nat) (a : ITemplateSection)
    (l : List ITemplateSection) (ha : a.order = k) :
    (List.orderedInsert secLE a l).filter (fun s => s.order == k) =
      a :: l.filter (fun s => s.order == k) := by
  induction l with
  | nil => simp [ha]
  | cons b l ih =>
    by_cases hab : secLE a b
    · simp only [List.orderedInsert, if_pos hab]
      simp [ha]
    · have hb : b.order ≠ k := by
        simp only [secLE, not_le] at hab
        omega
      have hbk : (b.order == k) = false := by simpa using hb
      simp only [List.orderedInsert, if_neg hab, List.filter_cons, hbk]
      simp [ih, hbk]

theorem filter_orderedInsert_ne (k : Nat) (a : ITemplateSection)
    (l : List ITemplateSection) (ha : a.order ≠ k) :
    (List.orderedInsert secLE a l).filter (fun s => s.order == k) =
      l.filter (fun s => s.order == k) := by
  induction l with
  | nil => simp [ha]
  | cons b l ih =>
    by_cases hab : secLE a b
    · simp only [List.orderedInsert, if_pos hab]
      simp [ha]
    · simp only [List.orderedInsert, if_neg hab, List.filter_cons]
      rw [ih]

/-- Stability of `sortSections`: the elements carrying any given `order`
value keep their original relative order, which (with
`sortSections_sorted` and `sortSections_perm`) pins it down as *the*
stable ascending sort that `Array.prototype.sort` performs here. -/
theorem sortSections_stable (k : Nat) (l : List ITemplateSection) :
    (sortSections l).filter (fun s => s.order == k) =
      l.filter (fun s => s.order == k) := by
  induction l with
  | nil => rfl
  | cons x xs ih =>
    rw [show sortSections (x :: xs) = List.orderedInsert secLE x (sortSections xs) from rfl]
    by_cases hx : x.order = k
    · rw [filter_orderedInsert_eq k x _ hx, ih]
      simp [hx]
    · rw [filter_orderedInsert_ne k x _ hx, ih]
      simp [hx]

/-! ### Claims about the synthesizer -/

/-- C4 counterexample: `generateContentForTemplate` sorts the template's
`sections` array in place, so on a template whose sections are not
already ascending by `order` the list differs afterwards. -/
theorem claim_C4_counterexample :
    (generateContentForTemplate c4Template [] []).2.sections ≠ c4Template.sections := by
  decide

/-- C4 (amended): the only mutation `generateContentForTemplate`
performs on its template is replacing `sections` by its stable ascending
sort (`sortSections`); all other fields are untouched, and a template
already sorted by `order` comes back unchanged. -/
theorem claim_C4_amended :
    (∀ (t : ITemplate) (p now : Str),
      (generateContentForTemplate t p now).2.sections = sortSections t.sections ∧
      (generateContentForTemplate t p now).2.filename = t.filename ∧
      (generateContentForTemplate t p now).2.type = t.type ∧
      (generateContentForTemplate t p now).2.content = t.content) ∧
    (∀ (t : ITemplate) (p now : Str), t.sections.Sorted secLE →
      (generateContentForTemplate t p now).2 = t) := by
  constructor
  · intro t p now
    exact ⟨rfl, rfl, rfl, rfl⟩
  · intro t p now h
    show ({ t with sections := sortSections t.sections } : ITemplate) = t
    rw [sortSections_of_sorted h]

/-- C4 witness: a template already sorted by `order` is returned
unchanged. -/
theorem claim_C4_witness :
    (generateContentForTemplate c4Sorted [] []).2 = c4Sorted :=
  claim_C4_amended.2 c4Sorted [] [] (by decide)

/-- C9: generation against an unknown template id fails fast: the
response is `reportId ""`, status `failed` with an error message, and
neither registry changes — before any synthesis (for every `synthesize`)
and before any report is constructed. -/
theorem claim_C9 (synthesize : ITemplate → Str → Except Str (Str × ITemplate))
    (templates : TemplateMap) (reports : ReportMap) (request : IGenerateRequest)
    (freshId created_at completed_at : Str)
    (h : mapGet templates request.templateId = none) :
    generateReportWith synthesize templates reports request freshId created_at completed_at =
      (templates, reports, ⟨[], .failed, none, some ("Template not found".toList)⟩) := by
  simp [generateReportWith, h]

/-- C9 witness: with an empty template registry the request fails and
both registries are returned unchanged. -/
theorem claim_C9_witness :
    generateReportWith failSynth [] [] c1Request [] [] [] =
      ([], [], ⟨[], .failed, none, some ("Template not found".toList)⟩) :=
  claim_C9 failSynth [] [] c1Request [] [] [] (by decide)

/-! ### Claims about the failure path of generateReport -/

theorem mapGet_append_right {V : Type} (m l : List (Str × V)) (k : Str)
    (h : ∀ kv ∈ m, (kv.1 == k) = false) :
    mapGet (m ++ l) k = mapGet l k := by
  induction m with
  | nil => rfl
  | cons a m ih =>
    have ha : (a.1 == k) = false := h a (by simp)
    simp only [mapGet, List.cons_append, List.find?] at *
    rw [ha]
    exact ih (fun kv hkv => h kv (by simp [hkv]))

theorem mapGet_mapSet_self {V : Type} (m : List (Str × V)) (k : Str) (v : V) :
    mapGet (mapSet m k v) k = some v := by
  unfold mapSet
  by_cases h : m.any (fun kv => kv.1 == k)
  · simp only [h, if_true]
    induction m with
    | nil => simp at h
    | cons a m ih =>
      by_cases ha : (a.1 == k)
      · simp [mapGet, List.find?, ha]
      · have hm : m.any (fun kv => kv.1 == k) := by
          rcases List.any_eq_true.mp h with ⟨kv, hkv, hkvk⟩
          rcases List.mem_cons.mp hkv with rfl | hkv
          · exact absurd hkvk (by simpa using ha)
          · exact List.any_eq_true.mpr ⟨kv, hkv, hkvk⟩
        have ha' : (a.1 == k) = false := by simpa using ha
        simp only [List.map_cons, ha', Bool.false_eq_true, if_false, mapGet, List.find?]
        exact ih hm
  · simp only [h, if_false]
    refine mapGet_append_right m [(k, v)] k ?_ |>.trans ?_
    · intro kv hkv
      by_contra hc
      exact h (List.any_eq_true.mpr ⟨kv, hkv, by simpa using hc⟩)
    · simp [mapGet, List.find?]

/-- C1 (amended): when the synthesis step throws after the template has
been resolved, `generateReport` does return the failure response
`{reportId: "", status: failed, error: msg}` and leaves the template
registry alone — but the report registry is *not* unchanged: the
`processing`-state report with empty content that was `set` before
synthesis (line 190) stays committed and remains visible under the
fresh id. -/
theorem claim_C1_amended (synthesize : ITemplate → Str → Except Str (Str × ITemplate))
    (templates : TemplateMap) (reports : ReportMap) (request : IGenerateRequest)
    (freshId created_at completed_at msg : Str) (tpl : ITemplate)
    (hget : mapGet templates request.templateId = some tpl)
    (hsyn : synthesize tpl request.prompt = Except.error msg) :
    (generateReportWith synthesize templates reports request freshId created_at
        completed_at).2.2 = ⟨[], .failed, none, some msg⟩ ∧
    (generateReportWith synthesize templates reports request freshId created_at
        completed_at).1 = templates ∧
    (generateReportWith synthesize templates reports request freshId created_at
        completed_at).2.1 =
      mapSet reports freshId ⟨freshId, request.title, tpl, [], .processing, created_at, none⟩ ∧
    mapGet (generateReportWith synthesize templates reports request freshId created_at
        completed_at).2.1 freshId =
      some ⟨freshId, request.title, tpl, [], .processing, created_at, none⟩ := by
  simp only [generateReportWith, hget, hsyn]
  exact ⟨trivial, trivial, trivial, mapGet_mapSet_self _ _ _⟩

/-- C1 counterexample: with one registered template and a throwing
synthesis step, the failure response is returned but the report registry
is no longer what it was (the `processing` entry remains), refuting
"the registry's entries are exactly the same before and after". -/
theorem claim_C1_counterexample :
    (generateReportWith failSynth c1Templates [] c1Request ("r1".toList) [] []).2.2 =
      ⟨[], .failed, none, some ("boom".toList)⟩ ∧
    (generateReportWith failSynth c1Templates [] c1Request ("r1".toList) [] []).2.1 ≠
      ([] : ReportMap) := by
  decide

/-- C1 witness: instantiating the amended claim at the concrete throwing
run. -/
theorem claim_C1_witness :
    (generateReportWith failSynth c1Templates [] c1Request ("r1".toList) [] []).2.2 =
      ⟨[], .failed, none, some ("boom".toList)⟩ ∧
    (generateReportWith failSynth c1Templates [] c1Request ("r1".toList) [] []).1 =
      c1Templates ∧
    (generateReportWith failSynth c1Templates [] c1Request ("r1".toList) [] []).2.1 =
      mapSet [] ("r1".toList)
        ⟨"r1".toList, c1Request.title, c1Template, [], .processing, [], none⟩ ∧
    mapGet (generateReportWith failSynth c1Templates [] c1Request ("r1".toList) [] []).2.1
        ("r1".toList) =
      some ⟨"r1".toList, c1Request.title, c1Template, [], .processing, [], none⟩ :=
  claim_C1_amended failSynth c1Templates [] c1Request ("r1".toList) [] [] ("boom".toList)
    c1Template (by decide) rfl

/-! ### Splitting generated content into lines -/

theorem splitNL_ne_nil (s : Str) : splitNL s ≠ [] := by
  cases s with
  | nil => simp [splitNL]
  | cons c cs =>
    simp only [splitNL]
    split
    · simp
    · cases h : splitNL cs <;> simp [consHead]

theorem consHead_append (c : Char) (X Y : List Str) (h : X ≠ []) :
    consHead c (X ++ Y) = consHead c X ++ Y := by
  cases X with
  | nil => exact absurd rfl h
  | cons x xs => simp [consHead]

theorem splitNL_append_cons (a b : Str) :
    splitNL (a ++ '\n' :: b) = splitNL a ++ splitNL b := by
  induction a with
  | nil => simp [splitNL]
  | cons c a ih =>
    by_cases hc : c == '\n'
    · simp only [List.cons_append, splitNL, hc, if_true]
      exact congrArg (fun l => [] :: l) ih
    · simp only [List.cons_append, splitNL, hc, Bool.false_eq_true, if_false]
      exact (congrArg (consHead c) ih).trans
        (consHead_append c (splitNL a) (splitNL b) (splitNL_ne_nil a))

theorem splitNL_no_nl (a : Str) (h : '\n' ∉ a) : splitNL a = [a] := by
  induction a with
  | nil => rfl
  | cons c a ih =>
    have hc : ¬(c == '\n') := by
      simp only [List.mem_cons, not_or] at h
      simpa using fun he => h.1 he.symm
    have ha : '\n' ∉ a := by
      simp only [List.mem_cons, not_or] at h
      exact h.2
    simp [splitNL, hc, ih ha, consHead]

theorem h2Lines_line (A R : Str) (hA : '\n' ∉ A) :
    h2Lines (A ++ '\n' :: R) = (if startsH2 A then [A] else []) ++ h2Lines R := by
  unfold h2Lines
  rw [splitNL_append_cons, List.filter_append, splitNL_no_nl A hA]
  congr 1
  simp [List.filter_cons]

theorem h2Lines_cons_nl (R : Str) : h2Lines ('\n' :: R) = h2Lines R := by
  have h := h2Lines_line [] R (by simp)
  simpa [startsH2] using h

theorem h2Lines_nil : h2Lines [] = [] := rfl

theorem startsH2_false_head (c : Char) (r : Str) (h : (c == '#') = false) :
    startsH2 (c :: r) = false := by
  match r with
  | [] => rfl
  | [c2] => rfl
  | c2 :: c3 :: r => simp [startsH2, h]

theorem startsH2_false_second (c1 c2 : Char) (r : Str) (h : (c2 == '#') = false) :
    startsH2 (c1 :: c2 :: r) = false := by
  match r with
  | [] => rfl
  | c3 :: r => simp [startsH2, h]

theorem startsH2_false_third (c1 c2 c3 : Char) (r : Str) (h : (c3 == ' ') = false) :
    startsH2 (c1 :: c2 :: c3 :: r) = false := by
  simp [startsH2, h]

theorem startsH2_mark (t : Str) : startsH2 ('#' :: '#' :: ' ' :: t) = true := by
  simp [startsH2]

theorem noNL_cons {c : Char} {r : Str} (hc : c ≠ '\n') (hr : '\n' ∉ r) :
    '\n' ∉ (c :: r) := by
  simp only [List.mem_cons, not_or]
  exact ⟨fun h => hc h.symm, hr⟩

theorem noNL_append {a b : Str} (ha : '\n' ∉ a) (hb : '\n' ∉ b) : '\n' ∉ a ++ b := by
  simp only [List.mem_append, not_or]
  exact ⟨ha, hb⟩

/-! ### Heading-count lemmas for the generated content -/

theorem startsH2_false_append (x y : Str) (hx : startsH2 x = false) (hlen : 3 ≤ x.length) :
    startsH2 (x ++ y) = false := by
  match x with
  | c1 :: c2 :: c3 :: r => simpa [startsH2] using hx
  | [] => simp at hlen
  | [c1] => simp at hlen
  | [c1, c2] => simp at hlen

theorem startsH2_true_append (x y : Str) (hx : startsH2 x = true) :
    startsH2 (x ++ y) = true := by
  match x with
  | c1 :: c2 :: c3 :: r => simpa [startsH2] using hx
  | [] => simp [startsH2] at hx
  | [c1] => simp [startsH2] at hx
  | [c1, c2] => simp [startsH2] at hx

theorem litNl2 : "\n\n".toList = ['\n', '\n'] := rfl

theorem litNl : "\n".toList = ['\n'] := rfl

theorem litH1 : "# ".toList = ['#', ' '] := rfl

theorem litBr : "[".toList = ['['] := rfl

theorem litEcho : " 상세\n\n".toList = " 상세".toList ++ ['\n', '\n'] := by decide

theorem litBody : " 내용이 여기에 작성됩니다.]\n\n".toList =
    " 내용이 여기에 작성됩니다.]".toList ++ ['\n', '\n'] := by decide

theorem litHdr : "에 기반한 보고서\n\n".toList =
    "에 기반한 보고서".toList ++ ['\n', '\n'] := by decide

theorem litTable : tableBlock =
    "| 항목 | 내용 | 비고 |".toList ++ '\n' ::
      ("|------|------|------|".toList ++ '\n' ::
        ("| 예시1 | 데이터1 | 설명1 |".toList ++ '\n' ::
          ("| 예시2 | 데이터2 | 설명2 |".toList ++ '\n' :: ('\n' :: [])))) := by
  decide

theorem litList : listBlock =
    "- 첫 번째 항목".toList ++ '\n' ::
      ("- 두 번째 항목".toList ++ '\n' ::
        ("- 세 번째 항목".toList ++ '\n' :: ('\n' :: []))) := by
  decide

theorem litFoot : "\n---\n**보고서 생성 완료**: ".toList =
    '\n' :: ("---".toList ++ '\n' :: "**보고서 생성 완료**: ".toList) := by
  decide

theorem h2_ph (ph : Option Str) (R : Str)
    (hph : ∀ p, ph = some p → ('\n' ∉ p ∧ startsH2 p = false)) :
    h2Lines (phText ph ++ '\n' :: ('\n' :: R)) = h2Lines R := by
  cases ph with
  | none =>
    rw [show phText none = "undefined".toList from rfl, h2Lines_line _ _ (by decide),
      show startsH2 ("undefined".toList) = false from rfl]
    simp [h2Lines_cons_nl]
  | some p =>
    obtain ⟨h1, h2⟩ := hph p rfl
    rw [show phText (some p) = p from rfl, h2Lines_line _ _ h1, h2]
    simp [h2Lines_cons_nl]

theorem h2_sectionBlock (s : ITemplateSection) (prompt R : Str)
    (hc : secClean s) (hp : '\n' ∉ prompt) :
    h2Lines (sectionBlock prompt s ++ R) = ("## ".toList ++ s.title) :: h2Lines R := by
  obtain ⟨ht, hph⟩ := hc
  have hA : '\n' ∉ ("## ".toList ++ s.title) := noNL_append (by decide) ht
  have hAs : startsH2 ("## ".toList ++ s.title) = true := startsH2_true_append _ _ (by decide)
  cases hty : s.type
  case header =>
    have hE : '\n' ∉ ("### ".toList ++ s.title ++ " 상세".toList) :=
      noNL_append (noNL_append (by decide) ht) (by decide)
    have hEs : startsH2 ("### ".toList ++ s.title ++ " 상세".toList) = false :=
      startsH2_false_append _ _ (startsH2_false_append _ _ (by decide) (by decide))
        (by simp)
    have e : sectionBlock prompt s ++ R =
        ("## ".toList ++ s.title) ++ '\n' :: ('\n' ::
          (("### ".toList ++ s.title ++ " 상세".toList) ++ '\n' :: ('\n' ::
            (phText s.placeholder ++ '\n' :: ('\n' :: R))))) := by
      simp [sectionBlock, hty, litNl2, litEcho, List.append_assoc]
    rw [e, h2Lines_line _ _ hA, hAs, h2Lines_cons_nl, h2Lines_line _ _ hE, hEs,
      h2Lines_cons_nl, h2_ph s.placeholder R hph]
    simp
  case content =>
    have hB : '\n' ∉ ('[' :: (prompt ++ "와 관련된 ".toList ++ s.title ++
        " 내용이 여기에 작성됩니다.]".toList)) :=
      noNL_cons (by decide)
        (noNL_append (noNL_append (noNL_append hp (by decide)) ht) (by decide))
    have e : sectionBlock prompt s ++ R =
        ("## ".toList ++ s.title) ++ '\n' :: ('\n' ::
          (phText s.placeholder ++ '\n' :: ('\n' ::
            (('[' :: (prompt ++ "와 관련된 ".toList ++ s.title ++
                " 내용이 여기에 작성됩니다.]".toList)) ++ '\n' :: ('\n' :: R))))) := by
      simp [sectionBlock, hty, litNl2, litBody, litBr, List.append_assoc]
    rw [e, h2Lines_line _ _ hA, hAs, h2Lines_cons_nl, h2_ph s.placeholder _ hph,
      h2Lines_line _ _ hB, startsH2_false_head _ _ (by decide), h2Lines_cons_nl]
    simp
  case table =>
    have e : sectionBlock prompt s ++ R =
        ("## ".toList ++ s.title) ++ '\n' :: ('\n' ::
          (phText s.placeholder ++ '\n' :: ('\n' ::
            ("| 항목 | 내용 | 비고 |".toList ++ '\n' ::
              ("|------|------|------|".toList ++ '\n' ::
                ("| 예시1 | 데이터1 | 설명1 |".toList ++ '\n' ::
                  ("| 예시2 | 데이터2 | 설명2 |".toList ++ '\n' :: ('\n' :: R)))))))) := by
      simp [sectionBlock, hty, litNl2, litTable, List.append_assoc]
    rw [e, h2Lines_line _ _ hA, hAs, h2Lines_cons_nl, h2_ph s.placeholder _ hph,
      h2Lines_line _ _ (by decide), show startsH2 ("| 항목 | 내용 | 비고 |".toList) = false
        from rfl,
      h2Lines_line _ _ (by decide), show startsH2 ("|------|------|------|".toList) = false
        from rfl,
      h2Lines_line _ _ (by decide),
      show startsH2 ("| 예시1 | 데이터1 | 설명1 |".toList) = false from rfl,
      h2Lines_line _ _ (by decide),
      show startsH2 ("| 예시2 | 데이터2 | 설명2 |".toList) = false from rfl,
      h2Lines_cons_nl]
    simp
  case list =>
    have e : sectionBlock prompt s ++ R =
        ("## ".toList ++ s.title) ++ '\n' :: ('\n' ::
          (phText s.placeholder ++ '\n' :: ('\n' ::
            ("- 첫 번째 항목".toList ++ '\n' ::
              ("- 두 번째 항목".toList ++ '\n' ::
                ("- 세 번째 항목".toList ++ '\n' :: ('\n' :: R))))))) := by
      simp [sectionBlock, hty, litNl2, litList, List.append_assoc]
    rw [e, h2Lines_line _ _ hA, hAs, h2Lines_cons_nl, h2_ph s.placeholder _ hph,
      h2Lines_line _ _ (by decide), show startsH2 ("- 첫 번째 항목".toList) = false from rfl,
      h2Lines_line _ _ (by decide), show startsH2 ("- 두 번째 항목".toList) = false from rfl,
      h2Lines_line _ _ (by decide), show startsH2 ("- 세 번째 항목".toList) = false from rfl,
      h2Lines_cons_nl]
    simp
  case image =>
    have e : sectionBlock prompt s ++ R =
        ("## ".toList ++ s.title) ++ '\n' :: ('\n' ::
          (phText s.placeholder ++ '\n' :: ('\n' :: R))) := by
      simp [sectionBlock, hty, litNl2, List.append_assoc]
    rw [e, h2Lines_line _ _ hA, hAs, h2Lines_cons_nl, h2_ph s.placeholder R hph]
    simp

theorem foldl_append_block {α : Type} (f : α → Str) (l : List α) (init : Str) :
    l.foldl (fun acc s => acc ++ f s) init = init ++ (l.map f).flatten := by
  induction l generalizing init with
  | nil => simp
  | cons x xs ih => simp [ih, List.append_assoc]

theorem h2_flatten_blocks (prompt : Str) (l : List ITemplateSection) (R : Str)
    (hp : '\n' ∉ prompt) (hl : ∀ s ∈ l, secClean s) :
    h2Lines ((l.map (fun s => sectionBlock prompt s)).flatten ++ R) =
      l.map (fun s => "## ".toList ++ s.title) ++ h2Lines R := by
  induction l with
  | nil => simp
  | cons s l ih =>
    simp only [List.map_cons, List.flatten_cons]
    rw [List.append_assoc, h2_sectionBlock s prompt _ (hl s (by simp)) hp,
      ih (fun x hx => hl x (by simp [hx]))]
    simp

theorem h2_footer (f n : Str) (hf : '\n' ∉ f) (hn : '\n' ∉ n) :
    h2Lines (footerBlock f n) = [] := by
  have e : footerBlock f n =
      '\n' :: ("---".toList ++ '\n' ::
        (("**보고서 생성 완료**: ".toList ++ n) ++ '\n' ::
          (("**기반 템플릿**: ".toList ++ f) ++ '\n' :: []))) := by
    simp [footerBlock, litFoot, litNl, List.append_assoc]
  rw [e, h2Lines_cons_nl, h2Lines_line _ _ (by decide),
    show startsH2 ("---".toList) = false from rfl,
    h2Lines_line _ _ (noNL_append (by decide) hn),
    startsH2_false_append _ _ (by decide) (by decide),
    h2Lines_line _ _ (noNL_append (by decide) hf),
    startsH2_false_append _ _ (by decide) (by decide)]
  simp [h2Lines_nil]

/-- C5 (amended): for every template whose section titles, placeholders,
filename, prompt and timestamp contain no newline and whose placeholders
do not themselves start with `## `, the content produced by a successful
`generateReport` has as its `## `-lines exactly one level-2 heading per
section, in the order of the sections stably sorted ascending by
`order` (`sortSections_sorted`, `sortSections_perm`,
`sortSections_stable`).  Without those hygiene hypotheses the count can
differ — see the counterexample. -/
theorem claim_C5_amended (t : ITemplate) (prompt now : Str)
    (hf : '\n' ∉ t.filename) (hp : '\n' ∉ prompt) (hn : '\n' ∉ now)
    (hs : ∀ s ∈ t.sections, secClean s) :
    h2Lines (generateContentForTemplate t prompt now).1 =
      (sortSections t.sections).map (fun s => "## ".toList ++ s.title) := by
  have hsorted : ∀ s ∈ sortSections t.sections, secClean s := by
    intro s hs'
    exact hs s ((sortSections_perm t.sections).mem_iff.mp hs')
  show h2Lines
      ((sortSections t.sections).foldl (fun acc s => acc ++ sectionBlock prompt s)
        ("# ".toList ++ t.filename ++ "에 기반한 보고서\n\n".toList) ++
        footerBlock t.filename now) = _
  rw [foldl_append_block]
  have hH : '\n' ∉ ('#' :: ' ' :: (t.filename ++ "에 기반한 보고서".toList)) :=
    noNL_cons (by decide) (noNL_cons (by decide) (noNL_append hf (by decide)))
  have e : ("# ".toList ++ t.filename ++ "에 기반한 보고서\n\n".toList ++
      ((sortSections t.sections).map (fun s => sectionBlock prompt s)).flatten) ++
        footerBlock t.filename now =
      ('#' :: ' ' :: (t.filename ++ "에 기반한 보고서".toList)) ++ '\n' :: ('\n' ::
        (((sortSections t.sections).map (fun s => sectionBlock prompt s)).flatten ++
          footerBlock t.filename now)) := by
    simp [litH1, litHdr, List.append_assoc]
  rw [e, h2Lines_line _ _ hH, startsH2_false_second _ _ _ (by decide), h2Lines_cons_nl,
    h2_flatten_blocks prompt _ _ hp hsorted, h2_footer _ _ hf hn]
  simp

/-- C5 counterexample: a template with a single section whose
placeholder itself begins with `## ` makes the generated content contain
two `## `-lines, not one per section. -/
theorem claim_C5_counterexample :
    c5Template.sections.length = 1 ∧
    (h2Lines (generateContentForTemplate c5Template [] []).1).length ≠ 1 := by
  decide

/-- C5 witness: instantiating the amended claim on a clean two-section
template whose sections are stored in descending `order`. -/
theorem claim_C5_witness :
    h2Lines (generateContentForTemplate c4Template ("P".toList) ("N".toList)).1 =
      (sortSections c4Template.sections).map (fun s => "## ".toList ++ s.title) :=
  claim_C5_amended c4Template ("P".toList) ("N".toList) (by decide) (by decide) (by decide)
    (by
      intro s hs
      rcases List.mem_cons.mp hs with rfl | hs
      · exact ⟨by decide, fun p h => nomatch h⟩
      rcases List.mem_cons.mp hs with rfl | hs
      · exact ⟨by decide, fun p h => nomatch h⟩
      cases hs)
